import Mathlib

/-!
Shallow embedding of the solana-multi-tier-oracle program
(programs/solana-multi-tier-oracle/src) and proofs about it.

Machine integers are modelled as `Nat` / `Int` with explicit wrapping,
saturating and checked operations at the widths the source uses
(`u16`, `u32`, `u64`, `u128`, `i32`, `i64`, `i128`).  Fallible Rust
functions returning `Result<T>` are modelled as `Except E T` where `E`
is the corresponding error enum.  `Pubkey` values are modelled as `Nat`
(only equality of keys is ever used by the embedded code).
-/

namespace Oracle

/-! ### Machine-integer helpers -/

def u16Mod : Nat := 65536
def u32Max : Nat := 4294967295
def u64Max : Nat := 18446744073709551615
def u128Max : Nat := 340282366920938463463374607431768211455
def i32Max : Int := 2147483647
def i32Min : Int := -2147483648
def i64Max : Int := 9223372036854775807
def i64Min : Int := -9223372036854775808
def i128Max : Int := 170141183460469231731687303715884105727
def i128Min : Int := -170141183460469231731687303715884105728

/-- Interpret an unbounded integer as a wrapped `i64` (two's complement). -/
def wrapI64 (x : Int) : Int := (x + 2 ^ 63) % 2 ^ 64 - 2 ^ 63

/-- Interpret an unbounded integer as a wrapped `i32` (two's complement). -/
def wrapI32 (x : Int) : Int := (x + 2 ^ 31) % 2 ^ 32 - 2 ^ 31

/-- Rust `i64::wrapping_sub`. -/
def wrapSubI64 (a b : Int) : Int := wrapI64 (a - b)

/-- Rust cast `as u32` applied to an `i64` value (bit truncation). -/
def castU32 (x : Int) : Nat := (x % 2 ^ 32).toNat

/-- Rust `i64::saturating_sub`. -/
def satSubI64 (a b : Int) : Int := max i64Min (min i64Max (a - b))

/-- Rust `i64::checked_div` (`None` on division by zero or `MIN / -1`),
truncating toward zero like Rust `/`. -/
def checkedDivI64 (a b : Int) : Option Int :=
  if b = 0 then none
  else if a = i64Min ∧ b = -1 then none
  else some (Int.tdiv a b)

/-- Rust `u32::saturating_add`. -/
def satAddU32 (a b : Nat) : Nat := min (a + b) u32Max

/-- Rust `u32::saturating_mul`. -/
def satMulU32 (a b : Nat) : Nat := min (a * b) u32Max

/-- Rust `u128::saturating_add`. -/
def satAddU128 (a b : Nat) : Nat := min (a + b) u128Max

/-- Rust `u128::saturating_mul`. -/
def satMulU128 (a b : Nat) : Nat := min (a * b) u128Max

/-- Rust `u128::checked_add`. -/
def checkedAddU128 (a b : Nat) : Option Nat :=
  if a + b ≤ u128Max then some (a + b) else none

/-- Rust `u128::checked_mul`. -/
def checkedMulU128 (a b : Nat) : Option Nat :=
  if a * b ≤ u128Max then some (a * b) else none

/-- Clamp an unbounded integer into the `i128` range. -/
def clampI128 (x : Int) : Int := max i128Min (min i128Max x)

/-- Rust `i128::saturating_add`. -/
def satAddI128 (a b : Int) : Int := clampI128 (a + b)

/-- Rust `i128::saturating_sub`. -/
def satSubI128 (a b : Int) : Int := clampI128 (a - b)

/-- Rust `i128::saturating_mul`. -/
def satMulI128 (a b : Int) : Int := clampI128 (a * b)

/-- Rust `i128::checked_add`. -/
def checkedAddI128 (a b : Int) : Option Int :=
  if i128Min ≤ a + b ∧ a + b ≤ i128Max then some (a + b) else none

/-- Rust `i128::checked_mul`. -/
def checkedMulI128 (a b : Int) : Option Int :=
  if i128Min ≤ a * b ∧ a * b ≤ i128Max then some (a * b) else none

/-- Rust cast `as i128` applied to a `u128` value (two's complement wrap). -/
def i128OfU128 (n : Nat) : Int :=
  if (n : Int) ≤ i128Max then (n : Int) else (n : Int) - 2 ^ 128

/-- Rust cast `as i64` applied to an `i128` value (bit truncation). -/
def castI64 (x : Int) : Int := wrapI64 x

/-- Rust `i32::try_from(u64).unwrap_or(i32::MAX)`
(used for tick deviations in fetch_raydium_price.rs). -/
def i32TryFromU64 (n : Nat) : Int := if (n : Int) ≤ i32Max then (n : Int) else i32Max

/-! ### Error enums (src/error.rs) -/

/-- StateError from src/error.rs (only the variants the embedded code raises). -/
inductive StateError where
  | InsufficientPermissions
  | UnauthorizedCaller
  | InvalidTWAPWindow
  | CircuitBreakerActive
  | InvalidSourceAddress
  | NotEnoughHistory
  deriving DecidableEq, Repr

/-- RaydiumObserverError from src/error.rs (variants raised by the embedded code). -/
inductive RaydiumObserverError where
  | InvalidOwner
  | TooSmall
  | Uninitialized
  | BadPda
  | PoolMismatch
  | InvalidWindow
  | InvalidIndex
  | InsufficientTime
  | TickOutOfBounds
  | MathError
  | ExcessiveDeviation
  | InvalidObservationPda
  | InvalidPrice
  deriving DecidableEq, Repr

/-- The anchor `Error` type unifies the two enums; update_price can surface both. -/
inductive OracleError where
  | state (e : StateError)
  | raydium (e : RaydiumObserverError)
  deriving DecidableEq, Repr

/-! ### Permissions bitfield (src/state/governance_state.rs, lines 104-324)

`Permissions` is a transparent wrapper around `u64`; we model the raw bits
as a `Nat` (kept `≤ u64Max` by all constructors in the source). -/

def UPDATE_PRICE : Nat := 1
def TRIGGER_CIRCUIT_BREAKER : Nat := 2
def MODIFY_CONFIG : Nat := 4
def VIEW_METRICS : Nat := 8
def EMERGENCY_HALT : Nat := 16
def ADD_FEED : Nat := 32
def REMOVE_FEED : Nat := 64

/-- Permissions::VALID_MASK: OR of the seven recognized permission bits. -/
def VALID_MASK : Nat :=
  UPDATE_PRICE ||| TRIGGER_CIRCUIT_BREAKER ||| MODIFY_CONFIG ||| VIEW_METRICS |||
  EMERGENCY_HALT ||| ADD_FEED ||| REMOVE_FEED

/-- Permissions::has: `(self.0 & permission.0) != 0`. -/
def permHas (self permission : Nat) : Bool := self &&& permission ≠ 0

/-- Permissions::as_u64 (the wrapper is transparent; identity on the raw bits). -/
def permAsU64 (self : Nat) : Nat := self

/-- Permissions::from_u64_truncate: `Self(value & Self::VALID_MASK)`. -/
def from_u64_truncate (value : Nat) : Nat := value &&& VALID_MASK

/-! ### GovernanceState (src/state/governance_state.rs, lines 33-456)

Only the fields read by the embedded operations are carried; the member and
permission arrays (fixed length MAX_MULTISIG_MEMBERS = 16 in the source) are
modelled as parallel lists scanned in index order exactly as the source's
`for (i, member) in self.multisig_members.iter().enumerate()` loop does. -/

def MAX_MULTISIG_MEMBERS : Nat := 16

structure GovernanceState where
  activeMemberCount : Nat
  multisigMembers : List Nat
  memberPermissions : List Nat
  deriving DecidableEq, Repr

/-- Index scan underlying GovernanceState::find_member: walk the member array
in order, returning the first index whose key matches and which lies below
`active_member_count`. -/
def findMemberFrom (gs : GovernanceState) (memberKey : Nat) :
    Nat → List Nat → Option (Nat × Nat)
  | _, [] => none
  | i, member :: rest =>
      if member = memberKey ∧ i < gs.activeMemberCount then
        some (i, gs.memberPermissions.getD i 0)
      else
        findMemberFrom gs memberKey (i + 1) rest

/-- GovernanceState::find_member (lines 412-419). -/
def find_member (gs : GovernanceState) (memberKey : Nat) : Option (Nat × Nat) :=
  findMemberFrom gs memberKey 0 gs.multisigMembers

/-- GovernanceState::check_member_permission (lines 445-455): identity check
first (UnauthorizedCaller), then permission bit check (InsufficientPermissions). -/
def check_member_permission (gs : GovernanceState) (memberKey : Nat)
    (requiredPermission : Nat) : Except StateError Unit :=
  match find_member gs memberKey with
  | some (_, permissions) =>
      if permHas permissions requiredPermission then Except.ok ()
      else Except.error StateError.InsufficientPermissions
  | none => Except.error StateError.UnauthorizedCaller

/-! ### HistoricalChunk circular buffer (src/state/historical_chunk.rs)

`PricePoint` carries the fields of the source struct (the `_padding` bytes
are layout-only).  `price` is an `i64`, `conf`/`volume`/`timestamp` are
`u64`/`i64`; all stay well inside their widths under the operations below,
so they are carried as `Nat`/`Int`.  Note: update_price.rs constructs
`PricePoint` values naming only `price`, `conf`, `timestamp` and `volume`;
those constructions use `expo := 0` (the zero-initialised value) here. -/

structure PricePoint where
  price : Int
  conf : Nat
  timestamp : Int
  volume : Nat
  expo : Int
  deriving DecidableEq, Repr

/-- BUFFER_SIZE from src/utils/constants.rs. -/
def BUFFER_SIZE : Nat := 128

/-- HistoricalChunk: the buffer-management fields plus the point array,
modelled as a total function from slot index to stored point (slots are
only ever read at indices `< BUFFER_SIZE`).  The chunk_id, creation
timestamp, next-chunk link and reserved bytes are never read by any
embedded operation and are omitted. -/
structure HistoricalChunk where
  head : Nat
  tail : Nat
  count : Nat
  pricePoints : Nat → PricePoint

/-- The all-zero chunk state produced at initialization (head = tail = count = 0). -/
def emptyChunk : HistoricalChunk :=
  { head := 0, tail := 0, count := 0,
    pricePoints := fun _ => { price := 0, conf := 0, timestamp := 0, volume := 0, expo := 0 } }

/-- HistoricalChunk::push (lines 154-168).  The source advances indices with
the bitmask `& (BUFFER_SIZE as u16 - 1)`, which for the power-of-two
BUFFER_SIZE = 128 is exactly `% BUFFER_SIZE`; the `u16` arithmetic cannot
overflow since `head, tail < 128`. -/
def push (c : HistoricalChunk) (point : PricePoint) : HistoricalChunk :=
  let pricePoints' := fun i => if i = c.head then point else c.pricePoints i
  let head' := (c.head + 1) % BUFFER_SIZE
  if c.count < BUFFER_SIZE then
    { head := head', tail := c.tail, count := c.count + 1, pricePoints := pricePoints' }
  else
    { head := head', tail := (c.tail + 1) % BUFFER_SIZE, count := c.count,
      pricePoints := pricePoints' }

/-- HistoricalChunk::latest (lines 184-197). -/
def latest (c : HistoricalChunk) : Option PricePoint :=
  if c.count = 0 then none
  else
    let latestIndex := if c.head = 0 then BUFFER_SIZE - 1 else c.head - 1
    some (c.pricePoints latestIndex)

/-- tail_index from src/instructions/update_price.rs (lines 46-49). -/
def tail_index (c : HistoricalChunk) : Nat :=
  (c.head + BUFFER_SIZE - c.count) % BUFFER_SIZE

/-- step_forward from src/instructions/update_price.rs (lines 51-54). -/
def step_forward (index : Nat) : Nat := (index + 1) % BUFFER_SIZE

/-- Read `n` slots starting at `start`, stepping forward with wraparound:
the index sequence every traversal loop in update_price.rs produces. -/
def viewFrom (pts : Nat → PricePoint) (start n : Nat) : List PricePoint :=
  (List.range n).map (fun k => pts ((start + k) % BUFFER_SIZE))

/-- The logical FIFO contents of a chunk: the forward traversal from
`tail_index` for `count` steps used by update_price.rs. -/
def chunkView (c : HistoricalChunk) : List PricePoint :=
  viewFrom c.pricePoints (tail_index c) c.count

/-- Fold `push` over a list of points (a finite sequence of pushes). -/
def pushAll (c : HistoricalChunk) (points : List PricePoint) : HistoricalChunk :=
  points.foldl push c

/-! ### Raydium constants (src/components/raydium_clmm_observer/raydium_constants.rs) -/

def OBSERVATION_NUM : Nat := 100
def OBSERVATION_UPDATE_DURATION : Nat := 15
def MIN_TICK : Int := -443636
def MAX_TICK : Int := 443636
def MIN_SQRT_PRICE_X64 : Nat := 4295048016
def MAX_SQRT_PRICE_X64 : Nat := 79226673521066979257578248091

/-! ### Tick math (src/components/raydium_clmm_observer/sqrt_price_to_tick.rs) -/

/-- multiply_q64 (lines 59-69): multiply two Q64.64 values in 256-bit space,
shift right 64, and fail if the result exceeds `u128::MAX`.  The `U256`
intermediate product of two `u128` values is exact, so plain `Nat`
arithmetic models it. -/
def multiply_q64 (a b : Nat) : Except RaydiumObserverError Nat :=
  let shifted := (a * b) >>> 64
  if u128Max < shifted then Except.error RaydiumObserverError.MathError
  else Except.ok shifted

/-- Pure value of multiply_q64 (used to state what the bit-decomposition
product computes). -/
def mulQ64 (a b : Nat) : Nat := (a * b) >>> 64

def FN1 : Nat := 0xFFFcb933bd6fad37
def FN2 : Nat := 0xFFF97272373d413c
def FN4 : Nat := 0xFFF2e50f5f656932
def FN8 : Nat := 0xFFE5caca7e10e4e6
def FN16 : Nat := 0xFFCB9843d60f6159
def FN32 : Nat := 0xFF973b41fa98c081
def FN64 : Nat := 0xFF2ea16466c96a39
def FN128 : Nat := 0xFE5dee046a99a2a8
def FN256 : Nat := 0xFCbe86c7900a88ae
def FN512 : Nat := 0xF987a7253ac41317
def FN1024 : Nat := 0xF3392b0822b70005
def FN2048 : Nat := 0xE7159475a2c29b74
def FN4096 : Nat := 0xD097f3bdfd2022b8
def FN8192 : Nat := 0xA9f746462d870fdf
def FN16384 : Nat := 0x70d869a156d2a1b8
def FN32768 : Nat := 0x31be135f97d08fd9
def FN65536 : Nat := 0x9aa508b5b7a84e1c
def FN131072 : Nat := 0x5d6af8dedb81196d
def FN262144 : Nat := 0x2216e584f5fa1ea9

/-- The per-bit factors of get_sqrt_ratio_at_tick in source order: bit
position `k` paired with the constant multiplied in when bit `k` of
`abs_tick` is set (the k = 0 factor FN1 seeds the product instead). -/
def sqrtFactors : List (Nat × Nat) :=
  [(1, FN2), (2, FN4), (3, FN8), (4, FN16), (5, FN32), (6, FN64), (7, FN128),
   (8, FN256), (9, FN512), (10, FN1024), (11, FN2048), (12, FN4096), (13, FN8192),
   (14, FN16384), (15, FN32768), (16, FN65536), (17, FN131072), (18, FN262144)]

/-- The seed of the bit-decomposition product: FN1 for odd `abs_tick`,
`1.0` in Q64.64 (`1 << 64`) for even. -/
def ratioSeed (absTick : Nat) : Nat := if absTick &&& 1 ≠ 0 then FN1 else 1 <<< 64

/-- The Q64.64 product of the per-bit constants over the set bits of
`abs_tick`, seeded by parity: the value the multiplication chain of
get_sqrt_ratio_at_tick computes when no step overflows. -/
def bitRatioProduct (absTick : Nat) : Nat :=
  sqrtFactors.foldl
    (fun r kc => if absTick &&& (1 <<< kc.1) ≠ 0 then mulQ64 r kc.2 else r)
    (ratioSeed absTick)

/-- get_sqrt_ratio_at_tick (lines 96-206): bounds check, boundary-tick
shortcuts, bit-decomposition multiplication chain, reciprocal for
`tick > 0` via `U256::from(u128::MAX) / ratio`, and a final range check. -/
def get_sqrt_ratio_at_tick (tick : Int) : Except RaydiumObserverError Nat :=
  if ¬ (-MAX_TICK ≤ tick ∧ tick ≤ MAX_TICK) then
    Except.error RaydiumObserverError.TickOutOfBounds
  else if tick = MIN_TICK then Except.ok MIN_SQRT_PRICE_X64
  else if tick = MAX_TICK then Except.ok MAX_SQRT_PRICE_X64
  else do
    let absTick := tick.natAbs
    let r ← sqrtFactors.foldlM
      (fun r kc =>
        if absTick &&& (1 <<< kc.1) ≠ 0 then multiply_q64 r kc.2 else pure r)
      (ratioSeed absTick)
    let r := if 0 < tick then u128Max / r else r
    if ¬ (MIN_SQRT_PRICE_X64 ≤ r ∧ r ≤ MAX_SQRT_PRICE_X64) then
      Except.error RaydiumObserverError.MathError
    else Except.ok r

def POW10_LOOKUP : List Nat :=
  [1, 10, 100, 1000, 10000, 100000, 1000000, 10000000, 100000000,
   1000000000, 10000000000, 100000000000, 1000000000000,
   10000000000000, 100000000000000, 1000000000000000,
   10000000000000000, 100000000000000000, 1000000000000000000]

/-- ui_price_from_sqrt_q64 (lines 233-268).  (Unused by update_price — the
call there is commented out — but part of the tick-math component.) -/
def ui_price_from_sqrt_q64 (sqrtPriceX64 : Nat) (decimal0 decimal1 : Nat) :
    Except RaydiumObserverError Nat := do
  let priceX64 ← multiply_q64 sqrtPriceX64 sqrtPriceX64
  let price := priceX64 >>> 64
  let decimalDifference : Int := (decimal0 : Int) - (decimal1 : Int)
  if decimalDifference = 0 then Except.ok price
  else if 1 ≤ decimalDifference ∧ decimalDifference ≤ 18 then
    Except.ok (satMulU128 price (POW10_LOOKUP.getD decimalDifference.toNat 0))
  else if -18 ≤ decimalDifference ∧ decimalDifference ≤ -1 then
    let divisor := POW10_LOOKUP.getD (-decimalDifference).toNat 0
    Except.ok ((price + (divisor >>> 1)) / divisor)
  else Except.error RaydiumObserverError.MathError

/-! ### Raydium observation reader (src/components/raydium_clmm_observer/raydium_accounts.rs)

An `Observation` is a (u32 block timestamp, i64 cumulative tick) pair.
`ObservationReader` exposes the cached `observation_index` and
`get_observation`, which reads slot `index % OBSERVATION_NUM`.  The
account-decoding layer (owner / size / PDA / initialization checks of
raydium_accounts.rs) authenticates and decodes the raw bytes; the embedding
takes the decoded data as input, which is what those checks yield on
success. -/

structure Observation where
  blockTimestamp : Nat
  tickCumulative : Int
  deriving DecidableEq, Repr

structure ObservationReader where
  currentIndex : Nat
  observations : Nat → Observation

/-- ObservationReader::get_observation (modular access into the ring). -/
def get_observation (r : ObservationReader) (index : Nat) : Observation :=
  r.observations (index % OBSERVATION_NUM)

/-- Decoded PoolStatePartial fields read by the price pipeline
(PoolReader accessors in raydium_accounts.rs). -/
structure PoolState where
  tickCurrent : Int
  liquidity : Nat
  sqrtPriceX64 : Nat
  mintDecimals0 : Nat
  mintDecimals1 : Nat
  deriving DecidableEq, Repr

/-! ### TWAP / T2EMA component (src/components/raydium_clmm_observer/twap.rs) -/

def FP_SHIFT : Nat := 32
def FP_ONE : Int := 2 ^ 32

/-- to_fp (lines 26-28): `(value as i128) << FP_SHIFT`. -/
def to_fp (value : Int) : Int := value * 2 ^ 32

/-- mul_fp (lines 38-40): `a.saturating_mul(b) >> FP_SHIFT` — an `i128`
saturating multiply followed by an arithmetic right shift (which on a
signed value is floor division by `2^32`). -/
def mul_fp (a b : Int) : Int := Int.ediv (satMulI128 a b) (2 ^ 32)

/-- The backward walk of find_observation_for_window (lines 84-105):
at most `OBSERVATION_NUM - 1` steps; stop before an uninitialized
observation, otherwise move to the previous index, stopping there when
the wraparound-safe comparison marks it at-or-before the target. -/
def walkBack (r : ObservationReader) (target : Int) :
    Nat → Nat → Nat
  | 0, indexThen => indexThen
  | steps + 1, indexThen =>
      let previousIndex := if indexThen = 0 then OBSERVATION_NUM - 1 else indexThen - 1
      let previousTimestamp : Int := (get_observation r previousIndex).blockTimestamp
      if previousTimestamp = 0 then indexThen
      else if wrapSubI64 target previousTimestamp < Int.shiftRight i64Max 1 then
        previousIndex
      else
        walkBack r target steps previousIndex

/-- find_observation_for_window (lines 55-119). -/
def find_observation_for_window (r : ObservationReader) (currentTimestamp : Int)
    (windowSize : Nat) : Except RaydiumObserverError (Nat × Nat × Nat) :=
  if ¬ (OBSERVATION_UPDATE_DURATION ≤ windowSize) then
    Except.error RaydiumObserverError.InvalidWindow
  else
    let indexNow := r.currentIndex
    let timestampNow : Int := (get_observation r indexNow).blockTimestamp
    if timestampNow = 0 then Except.error RaydiumObserverError.InvalidIndex
    else
      let staleness := wrapSubI64 currentTimestamp timestampNow
      if ¬ (staleness ≤ 600) then Except.error RaydiumObserverError.InsufficientTime
      else
        let targetTimestamp := wrapSubI64 currentTimestamp windowSize
        let indexThen := walkBack r targetTimestamp (OBSERVATION_NUM - 1) indexNow
        let elapsed := castU32 (wrapSubI64 timestampNow
          (get_observation r indexThen).blockTimestamp)
        if elapsed = 0 then Except.ok (indexNow, indexNow, 1)
        else Except.ok (indexThen, indexNow, elapsed)

/-- twap_tick_from_cumulatives (lines 138-163). -/
def twap_tick_from_cumulatives (tickCumulativeThen tickCumulativeNow : Int)
    (secondsElapsed : Nat) : Except RaydiumObserverError Int :=
  if secondsElapsed = 0 then Except.ok 0
  else
    let delta := wrapSubI64 tickCumulativeNow tickCumulativeThen
    let tick := Int.tdiv delta secondsElapsed
    if ¬ (MIN_TICK ≤ tick ∧ tick ≤ MAX_TICK) then
      Except.error RaydiumObserverError.TickOutOfBounds
    else Except.ok tick

/-- The t2ema_tick main loop (lines 203-258), with the iteration budget
(`iterations < OBSERVATION_NUM`) carried as descending fuel.  State:
current index `i`, `ema1`, `ema2` and the `first` flag; returns the final
`(ema1, ema2)` pair at any of the loop's `break` points. -/
def emaLoop (r : ObservationReader) (indexNow : Nat) (alpha oneMinusAlpha : Int) :
    Nat → Nat → Int → Int → Bool → Except RaydiumObserverError (Int × Int)
  | 0, _, ema1, ema2, _ => Except.ok (ema1, ema2)
  | fuel + 1, i, ema1, ema2, first =>
      let j := (i + 1) % OBSERVATION_NUM
      let oi := get_observation r i
      let oj := get_observation r j
      let timestampI : Int := oi.blockTimestamp
      let timestampJ : Int := oj.blockTimestamp
      if timestampI = 0 ∨ timestampJ = 0 then Except.ok (ema1, ema2)
      else
        let deltaTime := satSubI64 timestampJ timestampI
        if deltaTime = 0 then
          if j = indexNow then Except.ok (ema1, ema2)
          else emaLoop r indexNow alpha oneMinusAlpha fuel j ema1 ema2 first
        else
          let deltaTick := wrapSubI64 oj.tickCumulative oi.tickCumulative
          match checkedDivI64 deltaTick deltaTime with
          | none => Except.error RaydiumObserverError.MathError
          | some tickAverage =>
              let tickAverageClamped := max MIN_TICK (min MAX_TICK tickAverage)
              let x := to_fp tickAverageClamped
              let (ema1', ema2') :=
                if first then (x, x)
                else
                  let e1 := mul_fp alpha x + mul_fp oneMinusAlpha ema1
                  (e1, mul_fp alpha e1 + mul_fp oneMinusAlpha ema2)
              if j = indexNow then Except.ok (ema1', ema2')
              else emaLoop r indexNow alpha oneMinusAlpha fuel j ema1' ema2' false

/-- t2ema_tick (lines 183-269). -/
def t2ema_tick (r : ObservationReader) (indexThen indexNow : Nat)
    (alphaBasisPoints : Nat) : Except RaydiumObserverError Int :=
  if ¬ (0 < alphaBasisPoints ∧ alphaBasisPoints ≤ 10000) then
    Except.error RaydiumObserverError.InvalidWindow
  else do
    let alpha := Int.tdiv (FP_ONE * alphaBasisPoints) 10000
    let oneMinusAlpha := FP_ONE - alpha
    let (ema1, ema2) ← emaLoop r indexNow alpha oneMinusAlpha
      OBSERVATION_NUM indexThen 0 0 true
    let t2Raw := satSubI128 (satMulI128 2 ema1) ema2
    let tick := castI64 (Int.ediv t2Raw (2 ^ 32))
    if ¬ (MIN_TICK ≤ tick ∧ tick ≤ MAX_TICK) then
      Except.error RaydiumObserverError.TickOutOfBounds
    else Except.ok tick

/-- The confidence_from_variance main loop (lines 298-342), fuel-structured
like `emaLoop`; state: current index, sample count `n`, `sum`, `sum2`. -/
def varianceLoop (r : ObservationReader) (indexNow : Nat) :
    Nat → Nat → Nat → Int → Int → Except RaydiumObserverError (Nat × Int × Int)
  | 0, _, n, sum, sum2 => Except.ok (n, sum, sum2)
  | fuel + 1, i, n, sum, sum2 =>
      let j := (i + 1) % OBSERVATION_NUM
      let oi := get_observation r i
      let oj := get_observation r j
      let timestampI : Int := oi.blockTimestamp
      let timestampJ : Int := oj.blockTimestamp
      if timestampI = 0 ∨ timestampJ = 0 then Except.ok (n, sum, sum2)
      else
        let deltaTime := satSubI64 timestampJ timestampI
        if deltaTime = 0 then
          if j = indexNow then Except.ok (n, sum, sum2)
          else varianceLoop r indexNow fuel j n sum sum2
        else
          let deltaTick := wrapSubI64 oj.tickCumulative oi.tickCumulative
          match checkedDivI64 deltaTick deltaTime with
          | none => Except.error RaydiumObserverError.MathError
          | some t =>
              let n' := n + 1
              let sum' := satAddI128 sum t
              let sum2' := satAddI128 sum2 (satMulI128 t t)
              if j = indexNow then Except.ok (n', sum', sum2')
              else varianceLoop r indexNow fuel j n' sum' sum2'

/-- confidence_from_variance (lines 287-370). -/
def confidence_from_variance (r : ObservationReader) (indexThen indexNow : Nat) :
    Except RaydiumObserverError Nat := do
  let (n, sum, sum2) ← varianceLoop r indexNow OBSERVATION_NUM indexThen 0 0 0
  if n ≤ 1 then Except.ok 0
  else
    let mean := Int.tdiv sum n
    let meanSquare := satMulI128 mean mean
    let varianceRaw := satSubI128 (Int.tdiv sum2 n) meanSquare
    let variance : Nat :=
      if varianceRaw < 0 then 0
      else if (u32Max : Int) < varianceRaw then u32Max
      else varianceRaw.toNat
    Except.ok (10000 - min (variance / 100) 10000)

/-- assess_manipulation_risk (lines 394-435). -/
def assess_manipulation_risk (varianceConfidence : Nat) (deviationVsCurrent : Int)
    (secondsElapsed : Nat) (liquidityWeight minLiquidity : Nat) : Nat :=
  let varianceRisk := 10000 - varianceConfidence
  let deviationAbs := deviationVsCurrent.natAbs
  let deviationRisk := min 10000 (satMulU32 deviationAbs 5)
  let staleRisk := if secondsElapsed ≤ 29 then 2000
    else if secondsElapsed ≤ 1800 then 500
    else 2000
  let liquidityRisk := if liquidityWeight < minLiquidity then 4000 else 500
  let totalRisk :=
    satAddU32 (satAddU32 (satAddU32 varianceRisk deviationRisk) staleRisk) liquidityRisk
  min totalRisk 10000

/-! ### fetch_raydium_price (src/components/raydium_clmm_observer/fetch_raydium_price.rs) -/

structure DecimalPrice where
  price : Nat
  confidence : Nat
  timestamp : Int
  source : Nat
  liquidityDepth : Nat
  manipulationScore : Nat
  decimal0 : Nat
  decimal1 : Nat
  deriving DecidableEq, Repr

structure RaydiumParams where
  windowSeconds : Nat
  minSeconds : Nat
  minLiquidity : Nat
  maxTickDeviation : Int
  alphaBasisPoints : Nat
  timestamp : Int
  deriving DecidableEq, Repr

/-- fetch_raydium_price_from_observations (lines 134-249), phases 2-8.
Phase 1 (verify_observation_pda_and_read_pool / read_observation) only
authenticates the accounts and decodes them into the pool state and the
observation reader, which this embedding takes directly as inputs
(`poolKey` is the pool account's address, used for the `source` field).
The `min_seconds` enforcement at line 158 is commented out in the source
and therefore absent here. -/
def fetch_raydium_price_from_observations (pool : PoolState)
    (observation : ObservationReader) (poolKey : Nat) (params : RaydiumParams) :
    Except RaydiumObserverError DecimalPrice := do
  let (indexThen, indexNow, secondsElapsed) ←
    find_observation_for_window observation params.timestamp params.windowSeconds
  let observationThen := get_observation observation indexThen
  let observationNow := get_observation observation indexNow
  let twapTick0 ← twap_tick_from_cumulatives observationThen.tickCumulative
    observationNow.tickCumulative secondsElapsed
  let twapTick := if twapTick0 = 0 then pool.tickCurrent else twapTick0
  let t2emaTick ← t2ema_tick observation indexThen indexNow params.alphaBasisPoints
  let currentTick := pool.tickCurrent
  let dev64 := (t2emaTick - currentTick).natAbs
  let devVsCurrent := i32TryFromU64 dev64
  if ¬ (devVsCurrent ≤ params.maxTickDeviation) then
    Except.error RaydiumObserverError.ExcessiveDeviation
  else
    let devTwapVsT2ema64 := (twapTick - t2emaTick).natAbs
    let devTwapVsT2ema := i32TryFromU64 devTwapVsT2ema64
    if ¬ (devTwapVsT2ema ≤ params.maxTickDeviation) then
      Except.error RaydiumObserverError.ExcessiveDeviation
    else do
      let sqrtPriceX64 ← get_sqrt_ratio_at_tick (wrapI32 t2emaTick)
      let baseConfidence ← confidence_from_variance observation indexThen indexNow
      let riskScore := assess_manipulation_risk baseConfidence devVsCurrent
        secondsElapsed pool.liquidity params.minLiquidity
      Except.ok
        { price := sqrtPriceX64
          confidence := baseConfidence
          timestamp := observationNow.blockTimestamp
          source := poolKey
          liquidityDepth := pool.liquidity
          manipulationScore := riskScore
          decimal0 := pool.mintDecimals0
          decimal1 := pool.mintDecimals1 }

/-- The TWAP tick the fetch pipeline derives (phases 2-4 restricted to the
TWAP leg, including the zero-tick fallback to the pool's current tick). -/
def derivedTwapTick (pool : PoolState) (observation : ObservationReader)
    (params : RaydiumParams) : Except RaydiumObserverError Int := do
  let (indexThen, indexNow, secondsElapsed) ←
    find_observation_for_window observation params.timestamp params.windowSeconds
  let observationThen := get_observation observation indexThen
  let observationNow := get_observation observation indexNow
  let twapTick0 ← twap_tick_from_cumulatives observationThen.tickCumulative
    observationNow.tickCumulative secondsElapsed
  pure (if twapTick0 = 0 then pool.tickCurrent else twapTick0)

/-- The T2EMA tick the fetch pipeline derives (phases 2-4 restricted to the
T2EMA leg). -/
def derivedT2emaTick (observation : ObservationReader) (params : RaydiumParams) :
    Except RaydiumObserverError Int := do
  let (indexThen, indexNow, _) ←
    find_observation_for_window observation params.timestamp params.windowSeconds
  t2ema_tick observation indexThen indexNow params.alphaBasisPoints

/-! ### Streaming cross-chunk TWAP aggregator
(src/instructions/update_price.rs, lines 36-319)

The saturation-warning events only feed a rate-limited counter
(`saturation_events_emitted`, capped at MAX_SATURATION_EVENTS_PER_CALL);
the counter is carried in the accumulator, the event payloads have no
effect on state. -/

structure TWAPResult where
  twapPrice : Int
  twapConfidence : Nat
  dataPointsUsed : Nat
  coveredTimeSpan : Nat
  oldestTimestamp : Int
  newestTimestamp : Int
  deriving DecidableEq, Repr

def MAX_SATURATION_EVENTS_PER_CALL : Nat := 3

/-- The mutable locals of stream_twap_from_chunks threaded through the scan. -/
structure TwapAcc where
  weightedPriceSum : Int
  totalWeight : Nat
  confTimeSum : Nat
  timeOnlyWeight : Nat
  oldestTimestamp : Option Int
  previousPoint : Option PricePoint
  dataPointsUsed : Nat
  saturationEventsEmitted : Nat
  deriving Repr

def initialTwapAcc : TwapAcc :=
  { weightedPriceSum := 0, totalWeight := 0, confTimeSum := 0, timeOnlyWeight := 0,
    oldestTimestamp := none, previousPoint := none, dataPointsUsed := 0,
    saturationEventsEmitted := 0 }

/-- One weighted segment accumulation (lines 149-203): checked arithmetic
first, saturating fallback (with the rate-limited event counter bump)
otherwise.  `prev` supplies price/confidence, `timeDelta` the segment
length in seconds. -/
def accumulateSegment (acc : TwapAcc) (prev : PricePoint) (timeDelta : Nat) : TwapAcc :=
  let confSample := min prev.conf 10000
  let confWeight := max confSample 1
  let combinedWeight := satMulU128 timeDelta confWeight
  let priceWeighted := checkedMulI128 prev.price (i128OfU128 combinedWeight)
  let newPriceSum := priceWeighted.bind (fun pw => checkedAddI128 acc.weightedPriceSum pw)
  let confTimeWeighted := checkedMulU128 confSample timeDelta
  let newConfSum := confTimeWeighted.bind (fun ctw => checkedAddU128 acc.confTimeSum ctw)
  let newTimeWeight := checkedAddU128 acc.timeOnlyWeight timeDelta
  let newTotalWeight := checkedAddU128 acc.totalWeight combinedWeight
  match newPriceSum, newConfSum, newTotalWeight, newTimeWeight with
  | some ps, some cs, some tw, some twTime =>
      { acc with weightedPriceSum := ps, confTimeSum := cs,
                 totalWeight := tw, timeOnlyWeight := twTime }
  | _, _, _, _ =>
      let events :=
        if acc.saturationEventsEmitted < MAX_SATURATION_EVENTS_PER_CALL then
          acc.saturationEventsEmitted + 1
        else acc.saturationEventsEmitted
      { acc with
          weightedPriceSum := satAddI128 acc.weightedPriceSum
            (satMulI128 prev.price (i128OfU128 combinedWeight)),
          confTimeSum := satAddU128 acc.confTimeSum (satMulU128 confSample timeDelta),
          totalWeight := satAddU128 acc.totalWeight combinedWeight,
          timeOnlyWeight := satAddU128 acc.timeOnlyWeight timeDelta,
          saturationEventsEmitted := events }

/-- The per-point body of the visit_chunk loop (lines 116-208). -/
def visitPoint (actualCutoffTime : Int) (acc : TwapAcc) (point : PricePoint) : TwapAcc :=
  if point.timestamp < actualCutoffTime then acc
  else if ¬ (0 < point.price ∧ 0 < point.timestamp) then acc
  else
    let acc :=
      if acc.previousPoint = none ∧ actualCutoffTime < point.timestamp then
        { acc with
            previousPoint := some { price := point.price, conf := point.conf,
                                    timestamp := actualCutoffTime, volume := 0, expo := 0 },
            oldestTimestamp := some actualCutoffTime }
      else acc
    let acc :=
      if acc.oldestTimestamp = none then
        { acc with oldestTimestamp := some point.timestamp }
      else acc
    match acc.previousPoint with
    | some prevPoint =>
        let dt := point.timestamp - prevPoint.timestamp
        if dt ≤ 0 then acc
        else
          let acc := accumulateSegment acc prevPoint dt.toNat
          { acc with previousPoint := some point, dataPointsUsed := acc.dataPointsUsed + 1 }
    | none =>
        { acc with previousPoint := some point, dataPointsUsed := acc.dataPointsUsed + 1 }

/-- visit_chunk (lines 109-210): iterate from tail_index forward for count
steps — the chunk's `chunkView` — folding `visitPoint`. -/
def visitChunk (actualCutoffTime : Int) (acc : TwapAcc) (chunk : HistoricalChunk) : TwapAcc :=
  (chunkView chunk).foldl (visitPoint actualCutoffTime) acc

/-- The first pass of stream_twap_from_chunks (lines 77-94): per chunk, the
first non-degenerate point in tail-forward order; across chunks, the
minimum of those timestamps. -/
def findOldestTimestamp (chunks : List HistoricalChunk) : Option Int :=
  chunks.foldl
    (fun earliest chunk =>
      match (chunkView chunk).find? (fun p => 0 < p.price ∧ 0 < p.timestamp) with
      | some p =>
          some (match earliest with
                | some e => min e p.timestamp
                | none => p.timestamp)
      | none => earliest)
    none

/-- Everything stream_twap_from_chunks does after the cutoff is fixed
(lines 109-318): the chunk scan, the final trailing segment to `now`, the
two zero-weight checks and the result assembly. -/
def streamBody (chunks : List HistoricalChunk) (actualCutoffTime currentTime : Int) :
    Except StateError TWAPResult :=
  let acc := chunks.foldl (visitChunk actualCutoffTime) initialTwapAcc
  if acc.dataPointsUsed = 0 then Except.error StateError.NotEnoughHistory
  else
    match acc.oldestTimestamp, acc.previousPoint with
    | some oldest, some last =>
        let newest := last.timestamp
        let acc :=
          let dt := currentTime - last.timestamp
          if 0 < dt then accumulateSegment acc last dt.toNat else acc
        if acc.totalWeight = 0 then Except.error StateError.NotEnoughHistory
        else
          let twapPrice := Int.tdiv acc.weightedPriceSum (i128OfU128 acc.totalWeight)
          if acc.timeOnlyWeight = 0 then Except.error StateError.NotEnoughHistory
          else
            let twapConfidence := min (acc.confTimeSum / acc.timeOnlyWeight) 10000
            let coveredSpan := (max (currentTime - oldest) 0).toNat
            Except.ok
              { twapPrice := twapPrice
                twapConfidence := twapConfidence
                dataPointsUsed := acc.dataPointsUsed % u16Mod
                coveredTimeSpan := coveredSpan
                oldestTimestamp := oldest
                newestTimestamp := newest }
    | _, _ => Except.error StateError.NotEnoughHistory

/-- stream_twap_from_chunks (lines 56-319).  The cutoff starts at
`current_time - window_seconds`; when the oldest available non-degenerate
sample is newer it becomes the cutoff, failing with NotEnoughHistory when
the shrunk cutoff reaches `current_time` (lines 96-107).

Note: the source checks `data_points_used == 0` (line 224) before the
divisions, and the zero-weight divisions are each guarded (lines 297-307);
`streamBody` mirrors that ordering.  The `total_weight as i128` cast in the
source (line 298) is the wrapping `u128 → i128` cast, `i128OfU128`. -/
def stream_twap_from_chunks (chunks : List HistoricalChunk) (windowSeconds : Nat)
    (currentTime : Int) : Except StateError TWAPResult :=
  let requestedCutoffTime := currentTime - windowSeconds
  match findOldestTimestamp chunks with
  | some oldestAvailable =>
      let actualCutoffTime :=
        if requestedCutoffTime < oldestAvailable then oldestAvailable
        else requestedCutoffTime
      if currentTime ≤ actualCutoffTime then Except.error StateError.NotEnoughHistory
      else streamBody chunks actualCutoffTime currentTime
  | none => streamBody chunks requestedCutoffTime currentTime

/-! ### Oracle state, price feeds and the update_price instruction
(src/state/oracle_state.rs, src/state/price_feed.rs,
src/instructions/update_price.rs) -/

/-- PriceData (oracle_state.rs lines 304-324). -/
structure PriceData where
  price : Int
  conf : Nat
  timestamp : Int
  expo : Int
  deriving DecidableEq, Repr

/-- PriceFeed (price_feed.rs lines 24-76); `flags` is the FeedFlags `u8`
bitfield, `sourceType` the SourceType `u8` discriminant (DEX = 0). -/
structure PriceFeed where
  sourceAddress : Nat
  lastPrice : Int
  volume24h : Int
  liquidityDepth : Int
  lastConf : Nat
  lastUpdate : Int
  lastExpo : Int
  weight : Nat
  lpConcentration : Nat
  manipulationScore : Nat
  sourceType : Nat
  flags : Nat
  deriving DecidableEq, Repr, Inhabited

/-- FeedFlags::ACTIVE bit. -/
def FEED_ACTIVE : Nat := 1

/-- StateFlags::EMERGENCY_MODE bit (oracle_state.rs line 157). -/
def EMERGENCY_MODE : Nat := 2

/-- OracleState (oracle_state.rs lines 38-113); only the fields update_price
reads or writes are carried.  `stateFlags` is the StateFlags `u32` bitfield;
the feed array (fixed length MAX_PRICE_FEEDS = 16) is modelled as a list. -/
structure OracleState where
  stateFlags : Nat
  lastUpdate : Int
  currentPrice : PriceData
  priceFeeds : List PriceFeed
  twapWindow : Nat
  currentChunkIndex : Nat
  confidenceThreshold : Nat
  manipulationThreshold : Nat
  activeFeedCount : Nat
  deriving DecidableEq, Repr

/-- StateFlags::is_emergency_mode. -/
def is_emergency_mode (stateFlags : Nat) : Bool := stateFlags &&& EMERGENCY_MODE ≠ 0

def MAX_TWAP_WINDOW : Nat := 345600

/-- Modelled from the spec: `MIN_HISTORICAL_INTERVAL` is imported by
update_price.rs from utils/constants.rs but its definition is absent from
the sources provided; the spec's snapshot-cadence constants
(`MAX_SNAPSHOTS_PER_HOUR = 4`, i.e. one sample per 15 minutes) give the
minimum inter-sample interval of 900 seconds used here. -/
def MIN_HISTORICAL_INTERVAL : Int := 900

/-- UpdatePriceConfig (update_price.rs lines 25-34); the asset seed and the
network flag only select accounts/program ids and are not needed by the
embedded logic. -/
structure UpdatePriceConfig where
  windowSeconds : Nat
  minSeconds : Nat
  minLiquidity : Nat
  maxTickDeviation : Int
  alphaBasisPoints : Nat
  deriving DecidableEq, Repr

/-- order_chunks (update_price.rs lines 321-332). -/
def order_chunks (c0 c1 c2 : HistoricalChunk) (currentIdx : Nat) :
    List HistoricalChunk :=
  match currentIdx % 3 with
  | 0 => [c1, c2, c0]
  | 1 => [c2, c0, c1]
  | _ => [c0, c1, c2]

/-- determine_active_chunk (update_price.rs lines 334-354). -/
def determine_active_chunk (c0 c1 c2 : HistoricalChunk) (currentChunkIndex : Nat) :
    Nat × Bool :=
  let activeChunk :=
    match currentChunkIndex % 3 with
    | 0 => c0
    | 1 => c1
    | _ => c2
  if BUFFER_SIZE ≤ activeChunk.count then ((currentChunkIndex + 1) % 3, true)
  else (currentChunkIndex, false)

/-- The outcome of a successful update_price call: the mutated oracle state
and chunks, plus (for specification purposes) the TWAPResult selected and
the DecimalPrice fetched along the way. -/
structure UpdateOutcome where
  oracleState : OracleState
  chunk0 : HistoricalChunk
  chunk1 : HistoricalChunk
  chunk2 : HistoricalChunk
  twapResult : TWAPResult
  decimalPrice : DecimalPrice

/-- update_price (update_price.rs lines 411-627).

The instruction's state effects are a pure function of the loaded accounts
(oracle state, governance state, three chunks, the decoded Raydium pool and
observation data), the caller (`authority`), the config and the clock.
The checks that are commented out in the source (active-feed gate,
governance binding, the `check_member_permission` call at line 487, the
observation PDA check, and the confidence/manipulation threshold gates at
lines 506-514) are likewise absent here; in particular `governanceState`
and `authority` are never consulted.  Event emission has no state effect
and is dropped. -/
def update_price (oracleState : OracleState) (governanceState : GovernanceState)
    (chunk0 chunk1 chunk2 : HistoricalChunk) (pool : PoolState)
    (observation : ObservationReader) (poolKey oracleKey authority : Nat)
    (config : UpdatePriceConfig) (currentTime : Int) :
    Except OracleError UpdateOutcome := do
  if is_emergency_mode oracleState.stateFlags then
    Except.error (OracleError.state StateError.CircuitBreakerActive)
  else
    let oracleTwapWindow := oracleState.twapWindow
    if ¬ (oracleTwapWindow ≤ MAX_TWAP_WINDOW) then
      Except.error (OracleError.state StateError.InvalidTWAPWindow)
    else
      let minWindow := max MIN_HISTORICAL_INTERVAL.toNat OBSERVATION_UPDATE_DURATION
      if ¬ (minWindow ≤ oracleTwapWindow) then
        Except.error (OracleError.state StateError.InvalidTWAPWindow)
      else if ¬ (minWindow ≤ config.windowSeconds ∧ config.windowSeconds ≤ MAX_TWAP_WINDOW) then
        Except.error (OracleError.state StateError.InvalidTWAPWindow)
      else if ¬ (oracleTwapWindow % OBSERVATION_UPDATE_DURATION = 0) then
        Except.error (OracleError.state StateError.InvalidTWAPWindow)
      else if ¬ (config.windowSeconds % OBSERVATION_UPDATE_DURATION = 0) then
        Except.error (OracleError.state StateError.InvalidTWAPWindow)
      else do
        let params : RaydiumParams :=
          { windowSeconds := config.windowSeconds
            minSeconds := config.minSeconds
            minLiquidity := config.minLiquidity
            maxTickDeviation := config.maxTickDeviation
            alphaBasisPoints := config.alphaBasisPoints
            timestamp := currentTime }
        let decimalPrice ←
          (fetch_raydium_price_from_observations pool observation poolKey
            params).mapError OracleError.raydium
        if ¬ (0 < decimalPrice.price) then
          Except.error (OracleError.raydium RaydiumObserverError.InvalidPrice)
        else do
          let isFirstRun := chunk0.count = 0 ∧ chunk1.count = 0 ∧ chunk2.count = 0
          let twapResult ←
            if isFirstRun then
              pure { twapPrice := (min decimalPrice.price i128Max.toNat : Nat)
                     twapConfidence := decimalPrice.confidence
                     dataPointsUsed := 1
                     coveredTimeSpan := 0
                     oldestTimestamp := currentTime
                     newestTimestamp := currentTime }
            else
              (stream_twap_from_chunks
                (order_chunks chunk0 chunk1 chunk2 oracleState.currentChunkIndex)
                oracleTwapWindow currentTime).mapError OracleError.state
          match oracleState.priceFeeds.findIdx? (fun feed => feed.sourceAddress = poolKey) with
          | none => Except.error (OracleError.state StateError.InvalidSourceAddress)
          | some feedIndex => do
              let feed := oracleState.priceFeeds.getD feedIndex default
              let feed' :=
                { feed with
                    lastPrice := twapResult.twapPrice
                    lastUpdate := currentTime
                    lastConf := twapResult.twapConfidence
                    volume24h := 0
                    liquidityDepth := (min decimalPrice.liquidityDepth i128Max.toNat : Nat)
                    lpConcentration := 0
                    manipulationScore := min decimalPrice.manipulationScore 10000
                    sourceType := 0
                    flags := feed.flags ||| FEED_ACTIVE }
              let oracleState :=
                { oracleState with
                    priceFeeds := oracleState.priceFeeds.set feedIndex feed'
                    currentPrice :=
                      { price := twapResult.twapPrice
                        conf := twapResult.twapConfidence
                        timestamp := currentTime
                        expo := oracleState.currentPrice.expo }
                    lastUpdate := currentTime }
              let (activeChunkIndex, needsRotation) :=
                determine_active_chunk chunk0 chunk1 chunk2 oracleState.currentChunkIndex
              let oracleState :=
                if needsRotation then { oracleState with currentChunkIndex := activeChunkIndex }
                else oracleState
              let activeChunk :=
                match activeChunkIndex with
                | 0 => chunk0
                | 1 => chunk1
                | _ => chunk2
              let shouldPush : Bool :=
                match latest activeChunk with
                | some lastPoint =>
                    decide (MIN_HISTORICAL_INTERVAL ≤ currentTime - lastPoint.timestamp)
                | none => true
              let activeChunk' :=
                if shouldPush then
                  push activeChunk
                    { price := twapResult.twapPrice, conf := twapResult.twapConfidence,
                      timestamp := currentTime, volume := 0, expo := 0 }
                else activeChunk
              let (chunk0', chunk1', chunk2') :=
                match activeChunkIndex with
                | 0 => (activeChunk', chunk1, chunk2)
                | 1 => (chunk0, activeChunk', chunk2)
                | _ => (chunk0, chunk1, activeChunk')
              pure { oracleState := oracleState, chunk0 := chunk0', chunk1 := chunk1',
                     chunk2 := chunk2', twapResult := twapResult,
                     decimalPrice := decimalPrice }

/-! ## Helper lemmas -/

/-- Generic form of the multiplication chain of get_sqrt_ratio_at_tick: as
long as every factor is `< 2^64` and the seed is `≤ 2^64`, no step
overflows, the monadic chain equals the pure product, and the product stays
`≤ 2^64`. -/
theorem foldlM_factors_ok (a : Nat) (l : List (Nat × Nat))
    (hl : ∀ kc ∈ l, kc.2 < 2 ^ 64) (s : Nat) (hs : s ≤ 2 ^ 64) :
    l.foldlM
      (fun r kc =>
        if a &&& (1 <<< kc.1) ≠ 0 then multiply_q64 r kc.2 else pure r) s =
      Except.ok (l.foldl
        (fun r kc => if a &&& (1 <<< kc.1) ≠ 0 then mulQ64 r kc.2 else r) s) ∧
    l.foldl (fun r kc => if a &&& (1 <<< kc.1) ≠ 0 then mulQ64 r kc.2 else r) s
      ≤ 2 ^ 64 := by
  induction l generalizing s with
  | nil => exact ⟨rfl, hs⟩
  | cons kc rest ih =>
      have hkc : kc.2 < 2 ^ 64 := hl kc (List.mem_cons_self kc rest)
      have hrest : ∀ p ∈ rest, p.2 < 2 ^ 64 := fun p hp => hl p (List.mem_cons_of_mem kc hp)
      rw [List.foldlM_cons, List.foldl_cons]
      by_cases hbit : a &&& (1 <<< kc.1) ≠ 0
      · have hmul : mulQ64 s kc.2 ≤ 2 ^ 64 := by
          have h1 : s * kc.2 ≤ 2 ^ 64 * kc.2 := Nat.mul_le_mul_right _ hs
          have h2 : s * kc.2 / 2 ^ 64 ≤ 2 ^ 64 * kc.2 / 2 ^ 64 := Nat.div_le_div_right h1
          have h3 : 2 ^ 64 * kc.2 / 2 ^ 64 = kc.2 := by
            rw [Nat.mul_div_cancel_left _ (by norm_num : 0 < 2 ^ 64)]
          simp only [mulQ64, Nat.shiftRight_eq_div_pow]
          omega
        have hstep : multiply_q64 s kc.2 = Except.ok (mulQ64 s kc.2) := by
          have hlt : ¬ u128Max < (s * kc.2) >>> 64 := by
            simp only [Nat.shiftRight_eq_div_pow]
            have := hmul
            simp only [mulQ64, Nat.shiftRight_eq_div_pow] at this
            simp only [u128Max]
            omega
          simp [multiply_q64, hlt, mulQ64]
        rw [if_pos hbit, if_pos hbit, hstep]
        simp only [bind, Except.bind]
        exact ih hrest (mulQ64 s kc.2) hmul
      · rw [if_neg hbit, if_neg hbit]
        simp only [bind, Except.bind, pure, Except.pure]
        exact ih hrest s hs


/-- Every per-bit factor constant is below `2^64` (below `1.0` in Q64.64). -/
theorem sqrtFactors_lt : ∀ kc ∈ sqrtFactors, kc.2 < 2 ^ 64 := by decide

/-- The seed of the product is at most `2^64`. -/
theorem ratioSeed_le (a : Nat) : ratioSeed a ≤ 2 ^ 64 := by
  unfold ratioSeed
  split
  · decide
  · simp

/-- The multiplication chain of get_sqrt_ratio_at_tick never overflows and
computes `bitRatioProduct`. -/
theorem sqrtChain_ok (a : Nat) :
    sqrtFactors.foldlM
      (fun r kc =>
        if a &&& (1 <<< kc.1) ≠ 0 then multiply_q64 r kc.2 else pure r)
      (ratioSeed a) = Except.ok (bitRatioProduct a) := by
  have h := foldlM_factors_ok a sqrtFactors sqrtFactors_lt (ratioSeed a) (ratioSeed_le a)
  simpa [bitRatioProduct] using h.1

/-- The scan `findMemberFrom` never finds a key that is stored only at
indices at or beyond `active_member_count`. -/
theorem findMemberFrom_none (gs : GovernanceState) (memberKey : Nat) :
    ∀ (l : List Nat) (start : Nat),
      (∀ k, l.get? k = some memberKey → ¬ (start + k < gs.activeMemberCount)) →
      findMemberFrom gs memberKey start l = none := by
  intro l
  induction l with
  | nil => intro start _; rfl
  | cons member rest ih =>
      intro start h
      by_cases hm : member = memberKey ∧ start < gs.activeMemberCount
      · have h0 := h 0 (by simp [hm.1])
        omega
      · simp only [findMemberFrom, if_neg hm]
        exact ih (start + 1) (fun k hk => by
          have := h (k + 1) (by simpa using hk)
          omega)

/-- The structural invariant of the circular buffer maintained by `push`:
`head` is always `tail` plus `count`, modulo the capacity. -/
def chunkInv (c : HistoricalChunk) : Prop :=
  c.tail < BUFFER_SIZE ∧ c.count ≤ BUFFER_SIZE ∧
  c.head = (c.tail + c.count) % BUFFER_SIZE

theorem chunkInv_empty : chunkInv emptyChunk := by
  refine ⟨?_, ?_, ?_⟩ <;> simp [emptyChunk, BUFFER_SIZE]

theorem chunkInv_push (c : HistoricalChunk) (p : PricePoint) (h : chunkInv c) :
    chunkInv (push c p) := by
  obtain ⟨ht, hc, hh⟩ := h
  unfold push chunkInv BUFFER_SIZE at *
  dsimp only
  split <;> dsimp only <;> omega

theorem chunkInv_pushAll (pts : List PricePoint) (c : HistoricalChunk)
    (h : chunkInv c) : chunkInv (pushAll c pts) := by
  induction pts generalizing c with
  | nil => exact h
  | cons p rest ih => exact ih (push c p) (chunkInv_push c p h)

/-- `count` after a sequence of pushes from a state with invariant. -/
theorem count_push (c : HistoricalChunk) (p : PricePoint) :
    (push c p).count = if c.count < BUFFER_SIZE then c.count + 1 else c.count := by
  unfold push
  split <;> simp_all

theorem viewFrom_mod (pts : Nat → PricePoint) (s n : Nat) :
    viewFrom pts (s % BUFFER_SIZE) n = viewFrom pts s n := by
  simp [viewFrom, Nat.mod_add_mod]

theorem viewFrom_succ_last (pts : Nat → PricePoint) (s n : Nat) :
    viewFrom pts s (n + 1) = viewFrom pts s n ++ [pts ((s + n) % BUFFER_SIZE)] := by
  simp [viewFrom, List.range_succ]

theorem viewFrom_succ_head (pts : Nat → PricePoint) (s n : Nat) :
    viewFrom pts s (n + 1) = pts (s % BUFFER_SIZE) :: viewFrom pts (s + 1) n := by
  have hmap : (List.range n).map (fun k => pts ((s + (k + 1)) % BUFFER_SIZE)) =
      (List.range n).map (fun k => pts ((s + 1 + k) % BUFFER_SIZE)) := by
    apply List.map_congr_left
    intro k _
    rw [show s + (k + 1) = s + 1 + k by omega]
  simp only [viewFrom, List.range_succ_eq_map, List.map_cons, List.map_map, Function.comp,
    Nat.succ_eq_add_one, Nat.add_zero, List.cons.injEq]
  exact ⟨trivial, hmap⟩

theorem viewFrom_update_ne (pts : Nat → PricePoint) (s n h : Nat) (p : PricePoint)
    (hne : ∀ k, k < n → (s + k) % BUFFER_SIZE ≠ h) :
    viewFrom (fun i => if i = h then p else pts i) s n = viewFrom pts s n := by
  unfold viewFrom
  apply List.map_congr_left
  intro k hk
  rw [List.mem_range] at hk
  simp [hne k hk]

/-- Pushing into a non-full chunk appends the point to the FIFO view;
pushing into a full chunk drops the oldest element and appends the point. -/
theorem chunkView_push (c : HistoricalChunk) (p : PricePoint) (h : chunkInv c) :
    chunkView (push c p) =
      if c.count < BUFFER_SIZE then chunkView c ++ [p]
      else (chunkView c).drop 1 ++ [p] := by
  obtain ⟨ht, hc, hh⟩ := h
  by_cases hfull : c.count < BUFFER_SIZE
  · rw [if_pos hfull]
    have hpush : push c p =
        { head := (c.head + 1) % BUFFER_SIZE, tail := c.tail, count := c.count + 1,
          pricePoints := fun i => if i = c.head then p else c.pricePoints i } := by
      unfold push
      rw [if_pos hfull]
    rw [hpush]
    unfold chunkView tail_index
    dsimp only
    have htix : ((c.head + 1) % BUFFER_SIZE + BUFFER_SIZE - (c.count + 1)) % BUFFER_SIZE =
        (c.head + BUFFER_SIZE - c.count) % BUFFER_SIZE := by
      unfold BUFFER_SIZE at *
      omega
    have helem : ((c.head + BUFFER_SIZE - c.count) % BUFFER_SIZE + c.count) % BUFFER_SIZE =
        c.head := by
      unfold BUFFER_SIZE at *
      omega
    have hne : ∀ k, k < c.count →
        ((c.head + BUFFER_SIZE - c.count) % BUFFER_SIZE + k) % BUFFER_SIZE ≠ c.head := by
      intro k hk
      unfold BUFFER_SIZE at *
      omega
    rw [htix, viewFrom_succ_last, helem, viewFrom_update_ne _ _ _ _ _ hne]
    simp
  · rw [if_neg hfull]
    have hcount : c.count = BUFFER_SIZE := by omega
    have hhead : c.head < BUFFER_SIZE := hh ▸ Nat.mod_lt _ (by norm_num [BUFFER_SIZE])
    have hpush : push c p =
        { head := (c.head + 1) % BUFFER_SIZE, tail := (c.tail + 1) % BUFFER_SIZE,
          count := c.count,
          pricePoints := fun i => if i = c.head then p else c.pricePoints i } := by
      unfold push
      rw [if_neg hfull]
    rw [hpush]
    unfold chunkView tail_index
    dsimp only
    rw [hcount]
    have htix : ((c.head + 1) % BUFFER_SIZE + BUFFER_SIZE - BUFFER_SIZE) % BUFFER_SIZE =
        (c.head + 1) % BUFFER_SIZE := by
      unfold BUFFER_SIZE
      omega
    have htixc : (c.head + BUFFER_SIZE - BUFFER_SIZE) % BUFFER_SIZE = c.head := by
      unfold BUFFER_SIZE at *
      omega
    rw [htix, htixc, viewFrom_mod]
    have hsplitL : viewFrom (fun i => if i = c.head then p else c.pricePoints i)
        (c.head + 1) BUFFER_SIZE =
        viewFrom (fun i => if i = c.head then p else c.pricePoints i) (c.head + 1) 127 ++
          [if (c.head + 1 + 127) % BUFFER_SIZE = c.head then p
           else c.pricePoints ((c.head + 1 + 127) % BUFFER_SIZE)] :=
      viewFrom_succ_last _ (c.head + 1) 127
    have hsplitR : viewFrom c.pricePoints c.head BUFFER_SIZE =
        c.pricePoints (c.head % BUFFER_SIZE) :: viewFrom c.pricePoints (c.head + 1) 127 :=
      viewFrom_succ_head c.pricePoints c.head 127
    have hlast : (c.head + 1 + 127) % BUFFER_SIZE = c.head := by
      unfold BUFFER_SIZE at *
      omega
    have hne : ∀ k, k < 127 → (c.head + 1 + k) % BUFFER_SIZE ≠ c.head := by
      intro k hk
      unfold BUFFER_SIZE at *
      omega
    rw [hsplitL, hsplitR, hlast, viewFrom_update_ne _ _ _ _ _ hne]
    simp

/-- After any sequence of pushes into an initially empty chunk: the
invariant holds, `count` is the capped length, and the FIFO view is the
last (at most BUFFER_SIZE) pushed points in order. -/
theorem pushAll_view (pts : List PricePoint) :
    chunkInv (pushAll emptyChunk pts) ∧
    (pushAll emptyChunk pts).count = min pts.length BUFFER_SIZE ∧
    chunkView (pushAll emptyChunk pts) = pts.drop (pts.length - BUFFER_SIZE) := by
  induction pts using List.reverseRecOn with
  | nil =>
      refine ⟨chunkInv_empty, by simp [pushAll, emptyChunk], ?_⟩
      simp [pushAll, chunkView, emptyChunk, tail_index, viewFrom]
  | append_singleton l p ih =>
      obtain ⟨hinv, hcount, hview⟩ := ih
      have hstep : pushAll emptyChunk (l ++ [p]) = push (pushAll emptyChunk l) p := by
        simp [pushAll, List.foldl_append]
      refine ⟨?_, ?_, ?_⟩
      · rw [hstep]; exact chunkInv_push _ p hinv
      · rw [hstep, count_push, hcount]
        by_cases hl : l.length < BUFFER_SIZE
        · rw [if_pos (by simp only [BUFFER_SIZE] at *; omega)]
          simp only [List.length_append, List.length_singleton, BUFFER_SIZE] at *
          omega
        · rw [if_neg (by simp only [BUFFER_SIZE] at *; omega)]
          simp only [List.length_append, List.length_singleton, BUFFER_SIZE] at *
          omega
      · rw [hstep, chunkView_push _ p hinv, hcount]
        by_cases hl : l.length < BUFFER_SIZE
        · rw [if_pos (by simp only [BUFFER_SIZE] at *; omega), hview]
          have h0 : l.length - BUFFER_SIZE = 0 := by
            simp only [BUFFER_SIZE] at *
            omega
          have h0' : (l ++ [p]).length - BUFFER_SIZE = 0 := by
            simp only [List.length_append, List.length_singleton, BUFFER_SIZE] at *
            omega
          rw [h0, h0']
          simp
        · rw [if_neg (by simp only [BUFFER_SIZE] at *; omega), hview, List.drop_drop]
          have hle : l.length + 1 - BUFFER_SIZE ≤ l.length := by
            simp only [BUFFER_SIZE] at *
            omega
          rw [show l.length - BUFFER_SIZE + 1 = l.length + 1 - BUFFER_SIZE by
            simp only [BUFFER_SIZE] at *
            omega]
          rw [show (l ++ [p]).length - BUFFER_SIZE = l.length + 1 - BUFFER_SIZE by simp]
          rw [List.drop_append_of_le_length hle]

/-- Inversion for successful `Except` binds. -/
theorem except_bind_eq_ok {ε α β : Type} (x : Except ε α) (f : α → Except ε β) (b : β) :
    (x >>= f) = Except.ok b ↔ ∃ a, x = Except.ok a ∧ f a = Except.ok b := by
  cases x <;> simp [bind, Except.bind]

/-- Inversion for successful `Except.mapError`. -/
theorem mapError_eq_ok {ε ε' α : Type} (g : ε → ε') (x : Except ε α) (b : α) :
    x.mapError g = Except.ok b ↔ x = Except.ok b := by
  cases x <;> simp [Except.mapError]

/-- A successful get_sqrt_ratio_at_tick result lies within the sqrt-price
bounds (either a boundary constant or explicitly range-checked). -/
theorem get_sqrt_ratio_at_tick_bounds (t : Int) (r : Nat)
    (h : get_sqrt_ratio_at_tick t = Except.ok r) :
    MIN_SQRT_PRICE_X64 ≤ r ∧ r ≤ MAX_SQRT_PRICE_X64 := by
  unfold get_sqrt_ratio_at_tick at h
  split at h
  · simp at h
  · split at h
    · simp only [Except.ok.injEq] at h
      subst h
      decide
    · split at h
      · simp only [Except.ok.injEq] at h
        subst h
        decide
      · rw [except_bind_eq_ok] at h
        obtain ⟨v, -, h⟩ := h
        dsimp only at h
        split at h
        all_goals
          split at h
          · simp at h
          · rename_i hc
            push_neg at hc
            simp only [Except.ok.injEq] at h
            subst h
            exact ⟨hc.1, by omega⟩

/-- A successful fetch returns a price within the sqrt-price bounds (the
price field is the range-checked get_sqrt_ratio_at_tick output). -/
theorem fetch_ok_price_bounds (pool : PoolState) (observation : ObservationReader)
    (poolKey : Nat) (params : RaydiumParams) (dp : DecimalPrice)
    (h : fetch_raydium_price_from_observations pool observation poolKey params =
      Except.ok dp) :
    MIN_SQRT_PRICE_X64 ≤ dp.price ∧ dp.price ≤ MAX_SQRT_PRICE_X64 := by
  unfold fetch_raydium_price_from_observations at h
  rw [except_bind_eq_ok] at h
  obtain ⟨⟨indexThen, indexNow, secondsElapsed⟩, -, h⟩ := h
  rw [except_bind_eq_ok] at h
  obtain ⟨twapTick0, -, h⟩ := h
  rw [except_bind_eq_ok] at h
  obtain ⟨t2emaTick, -, h⟩ := h
  dsimp only at h
  split at h
  · simp at h
  · split at h
    all_goals
      split at h
      · simp at h
      · rw [except_bind_eq_ok] at h
        obtain ⟨s, hs, h⟩ := h
        rw [except_bind_eq_ok] at h
        obtain ⟨c, -, h⟩ := h
        simp only [Except.ok.injEq] at h
        subst h
        exact get_sqrt_ratio_at_tick_bounds _ _ hs

/-! ## Claim theorems -/

/-- C4: starting from an empty HistoricalChunk, after every finite sequence
of push operations, count ≤ BUFFER_SIZE, head < BUFFER_SIZE,
tail < BUFFER_SIZE, and head = tail exactly when the chunk is empty or
full. -/
theorem historical_chunk_push_invariants (pts : List PricePoint) :
    (pushAll emptyChunk pts).count ≤ BUFFER_SIZE ∧
    (pushAll emptyChunk pts).head < BUFFER_SIZE ∧
    (pushAll emptyChunk pts).tail < BUFFER_SIZE ∧
    ((pushAll emptyChunk pts).head = (pushAll emptyChunk pts).tail ↔
      (pushAll emptyChunk pts).count = 0 ∨
      (pushAll emptyChunk pts).count = BUFFER_SIZE) := by
  obtain ⟨⟨ht, hc, hh⟩, _, -⟩ := pushAll_view pts
  refine ⟨hc, ?_, ht, ?_⟩
  · rw [hh]
    exact Nat.mod_lt _ (by norm_num [BUFFER_SIZE])
  · rw [hh]
    simp only [BUFFER_SIZE] at *
    omega

/-- The sample points used in the C5 witness: distinct timestamps spaced at
the 900-second minimum historical interval. -/
def c5Point (i : Nat) : PricePoint :=
  { price := 1, conf := 0, timestamp := (900 * i : Nat), volume := 0, expo := 0 }

def c5pts : List PricePoint := (List.range 129).map c5Point

def c5p : PricePoint := c5Point 129

/-- C5: pushing more than BUFFER_SIZE distinct points into an empty chunk,
the tail-forward traversal of length count yields exactly the last
BUFFER_SIZE points in push order; one further push into the (now full)
chunk advances tail by exactly one slot, keeps count at capacity, makes
the view drop the oldest point and append the new one, and the evicted
oldest point no longer appears in the traversal. -/
theorem historical_chunk_fifo (pts : List PricePoint) (p : PricePoint)
    (hlen : BUFFER_SIZE < pts.length) (hnodup : (pts ++ [p]).Nodup) :
    chunkView (pushAll emptyChunk pts) = pts.drop (pts.length - BUFFER_SIZE) ∧
    (pushAll emptyChunk (pts ++ [p])).tail =
      ((pushAll emptyChunk pts).tail + 1) % BUFFER_SIZE ∧
    (pushAll emptyChunk (pts ++ [p])).count = BUFFER_SIZE ∧
    chunkView (pushAll emptyChunk (pts ++ [p])) =
      (chunkView (pushAll emptyChunk pts)).drop 1 ++ [p] ∧
    ∀ e, (chunkView (pushAll emptyChunk pts)).head? = some e →
      e ∉ chunkView (pushAll emptyChunk (pts ++ [p])) := by
  obtain ⟨hinv, hcount, hview⟩ := pushAll_view pts
  have hfull : (pushAll emptyChunk pts).count = BUFFER_SIZE := by
    rw [hcount]
    simp only [BUFFER_SIZE] at *
    omega
  have hnotlt : ¬ ((pushAll emptyChunk pts).count < BUFFER_SIZE) := by omega
  have hstep : pushAll emptyChunk (pts ++ [p]) = push (pushAll emptyChunk pts) p := by
    simp [pushAll, List.foldl_append]
  have hviewfull : chunkView (pushAll emptyChunk (pts ++ [p])) =
      (chunkView (pushAll emptyChunk pts)).drop 1 ++ [p] := by
    rw [hstep, chunkView_push _ p hinv, if_neg hnotlt]
  refine ⟨hview, ?_, ?_, hviewfull, ?_⟩
  · rw [hstep]
    unfold push
    rw [if_neg hnotlt]
  · rw [hstep, count_push, if_neg hnotlt, hfull]
  · intro e he
    rw [hview] at he
    obtain ⟨rest, hd⟩ : ∃ rest,
        pts.drop (pts.length - BUFFER_SIZE) = e :: rest := by
      cases hdrop : pts.drop (pts.length - BUFFER_SIZE) with
      | nil => rw [hdrop] at he; simp at he
      | cons a l =>
          rw [hdrop] at he
          simp only [List.head?_cons, Option.some.injEq] at he
          exact ⟨l, by rw [he]⟩
    have hptsnd : pts.Nodup := hnodup.of_append_left
    have hdropnd : (pts.drop (pts.length - BUFFER_SIZE)).Nodup :=
      List.Nodup.sublist (List.drop_sublist _ _) hptsnd
    rw [hd] at hdropnd
    have hnotrest : e ∉ rest := (List.nodup_cons.mp hdropnd).1
    have hmem : e ∈ pts :=
      List.mem_of_mem_drop (hd ▸ List.mem_cons_self e rest)
    have hnep : e ≠ p := by
      intro hep
      exact (List.disjoint_of_nodup_append hnodup) hmem (by simp [hep])
    rw [hviewfull, hview, hd]
    simp [hnotrest, hnep]

/-- Witness for C5: 129 points with distinct timestamps, then one more. -/
theorem historical_chunk_fifo_witness :
    chunkView (pushAll emptyChunk c5pts) = c5pts.drop (c5pts.length - BUFFER_SIZE) ∧
    (pushAll emptyChunk (c5pts ++ [c5p])).tail =
      ((pushAll emptyChunk c5pts).tail + 1) % BUFFER_SIZE ∧
    (pushAll emptyChunk (c5pts ++ [c5p])).count = BUFFER_SIZE ∧
    chunkView (pushAll emptyChunk (c5pts ++ [c5p])) =
      (chunkView (pushAll emptyChunk c5pts)).drop 1 ++ [c5p] ∧
    ∀ e, (chunkView (pushAll emptyChunk c5pts)).head? = some e →
      e ∉ chunkView (pushAll emptyChunk (c5pts ++ [c5p])) := by
  have hinj : Function.Injective c5Point := by
    intro a b hab
    have h := congrArg PricePoint.timestamp hab
    simp only [c5Point] at h
    omega
  have hnodup : (c5pts ++ [c5p]).Nodup := by
    have hsplit : c5pts ++ [c5p] = (List.range 130).map c5Point := by
      rw [show (130 : Nat) = 129 + 1 from rfl, List.range_succ, List.map_append]
      rfl
    rw [hsplit]
    exact List.Nodup.map hinj (List.nodup_range 130)
  exact historical_chunk_fifo c5pts c5p (by simp [c5pts, BUFFER_SIZE]) hnodup

/-- C6: when the oldest available non-degenerate sample across the chunks is
newer than `current_time - window_seconds`, stream_twap_from_chunks shrinks
the cutoff to that sample's timestamp and proceeds (it evaluates to the
post-cutoff body at the shrunk cutoff) — unless the shrunk cutoff is at or
after `current_time`, in which case it returns the NotEnoughHistory error
(no panic, no price). -/
theorem stream_twap_cutoff_shrink (chunks : List HistoricalChunk)
    (windowSeconds : Nat) (currentTime : Int) (oldestAvailable : Int)
    (hfind : findOldestTimestamp chunks = some oldestAvailable)
    (hnewer : currentTime - windowSeconds < oldestAvailable) :
    (currentTime ≤ oldestAvailable →
      stream_twap_from_chunks chunks windowSeconds currentTime =
        Except.error StateError.NotEnoughHistory) ∧
    (oldestAvailable < currentTime →
      stream_twap_from_chunks chunks windowSeconds currentTime =
        streamBody chunks oldestAvailable currentTime) := by
  unfold stream_twap_from_chunks
  rw [hfind]
  dsimp only
  rw [if_pos hnewer]
  constructor
  · intro hle
    rw [if_pos hle]
  · intro hlt
    rw [if_neg (by omega)]

/-- The chunk used by the C6 witness: a single pushed sample at
timestamp 100 with positive price. -/
def c6chunk : HistoricalChunk :=
  pushAll emptyChunk
    [{ price := 5, conf := 9000, timestamp := 100, volume := 0, expo := 0 }]

/-- Witness for C6: one sample at t = 100, current time 150, window 200 —
the requested cutoff -50 shrinks to 100, which is before now, so the call
proceeds with the shrunk cutoff. -/
theorem stream_twap_cutoff_shrink_witness :
    ((150 : Int) ≤ 100 →
      stream_twap_from_chunks [c6chunk] 200 150 =
        Except.error StateError.NotEnoughHistory) ∧
    ((100 : Int) < 150 →
      stream_twap_from_chunks [c6chunk] 200 150 = streamBody [c6chunk] 100 150) :=
  stream_twap_cutoff_shrink [c6chunk] 200 150 100 (by decide) (by decide)

/-- C1 (amended): every successful fetch_raydium_price_from_observations
call has its derived T2EMA tick within `max_tick_deviation` (after the
`i32::try_from(..).unwrap_or(i32::MAX)` conversion) of the pool's current
tick AND its derived TWAP tick within `max_tick_deviation` of the T2EMA
tick; and whenever both ticks derive successfully but differ by more than
`max_tick_deviation`, the call fails with ExcessiveDeviation (not a generic
math error).  [The source never compares the TWAP tick against the current
tick directly, so the TWAP tick is only within the deviation bound of the
T2EMA tick, not necessarily of the current tick.] -/
theorem fetch_cross_validation (pool : PoolState) (observation : ObservationReader)
    (poolKey : Nat) (params : RaydiumParams) :
    (∀ dp, fetch_raydium_price_from_observations pool observation poolKey params =
        Except.ok dp →
      ∃ tw te, derivedTwapTick pool observation params = Except.ok tw ∧
        derivedT2emaTick observation params = Except.ok te ∧
        i32TryFromU64 ((te - pool.tickCurrent).natAbs) ≤ params.maxTickDeviation ∧
        i32TryFromU64 ((tw - te).natAbs) ≤ params.maxTickDeviation) ∧
    (∀ tw te, derivedTwapTick pool observation params = Except.ok tw →
      derivedT2emaTick observation params = Except.ok te →
      ¬ (i32TryFromU64 ((tw - te).natAbs) ≤ params.maxTickDeviation) →
      fetch_raydium_price_from_observations pool observation poolKey params =
        Except.error RaydiumObserverError.ExcessiveDeviation) := by
  unfold fetch_raydium_price_from_observations derivedTwapTick derivedT2emaTick
  cases hfow : find_observation_for_window observation params.timestamp
      params.windowSeconds with
  | error e =>
      simp only [bind, Except.bind]
      constructor
      · intro dp hdp
        exact absurd hdp (by simp)
      · intro tw te htw
        exact absurd htw (by simp)
  | ok triple =>
      obtain ⟨indexThen, indexNow, secondsElapsed⟩ := triple
      simp only [bind, Except.bind]
      cases htw : twap_tick_from_cumulatives
          (get_observation observation indexThen).tickCumulative
          (get_observation observation indexNow).tickCumulative secondsElapsed with
      | error e =>
          constructor
          · intro dp hdp
            exact absurd hdp (by simp)
          · intro tw te htw'
            exact absurd htw' (by simp)
      | ok twapTick0 =>
          cases hte : t2ema_tick observation indexThen indexNow
              params.alphaBasisPoints with
          | error e =>
              constructor
              · intro dp hdp
                exact absurd hdp (by simp)
              · intro tw te _ hte'
                exact absurd hte' (by simp)
          | ok t2emaTick =>
              dsimp only
              constructor
              · intro dp hdp
                by_cases hdev1 : i32TryFromU64
                    ((t2emaTick - pool.tickCurrent).natAbs) ≤ params.maxTickDeviation
                · rw [if_neg (not_not_intro hdev1)] at hdp
                  by_cases hdev2 : i32TryFromU64
                      (((if twapTick0 = 0 then pool.tickCurrent else twapTick0) -
                        t2emaTick).natAbs) ≤ params.maxTickDeviation
                  · exact ⟨_, _, rfl, rfl, hdev1, hdev2⟩
                  · rw [if_pos hdev2] at hdp
                    exact absurd hdp (by simp)
                · rw [if_pos hdev1] at hdp
                  exact absurd hdp (by simp)
              · intro tw te htw' hte' hdev
                have htw'' : tw = if twapTick0 = 0 then pool.tickCurrent else twapTick0 := by
                  simpa [pure, Except.pure] using htw'.symm
                have hte'' : te = t2emaTick := by
                  simpa [pure, Except.pure] using hte'.symm
                rw [htw'', hte''] at hdev
                by_cases hdev1 : i32TryFromU64
                    ((t2emaTick - pool.tickCurrent).natAbs) ≤ params.maxTickDeviation
                · rw [if_neg (not_not_intro hdev1), if_pos hdev]
                · rw [if_pos hdev1]

/-- Concrete observation data for C1: slot 0 holds a u32 timestamp near the
wrap boundary, slot 1 (the current index) a small timestamp, so the
`wrapping_sub ... as u32` elapsed computation yields 15 while the per-pair
T2EMA segment sees a negative duration and averages to tick 0. -/
def c1reader : ObservationReader :=
  { currentIndex := 1,
    observations := fun i =>
      if i = 0 then { blockTimestamp := 4294967291, tickCumulative := 0 }
      else if i = 1 then { blockTimestamp := 10, tickCumulative := 1500 }
      else { blockTimestamp := 0, tickCumulative := 0 } }

def c1pool : PoolState :=
  { tickCurrent := -100, liquidity := 1000000, sqrtPriceX64 := 0,
    mintDecimals0 := 6, mintDecimals1 := 6 }

def c1params : RaydiumParams :=
  { windowSeconds := 30, minSeconds := 0, minLiquidity := 0,
    maxTickDeviation := 100, alphaBasisPoints := 5000, timestamp := 20 }

/-- C1 counterexample: a successful fetch whose derived TWAP tick (100) is
200 ticks away from the pool's current tick (-100) — twice the
`max_tick_deviation` of 100 — because the source never checks the TWAP tick
against the current tick (only T2EMA-vs-current and TWAP-vs-T2EMA). -/
theorem fetch_twap_beyond_current_deviation :
    (fetch_raydium_price_from_observations c1pool c1reader 555 c1params).isOk = true ∧
    derivedTwapTick c1pool c1reader c1params = Except.ok 100 ∧
    c1pool.tickCurrent = -100 ∧
    ¬ (i32TryFromU64 (((100 : Int) - c1pool.tickCurrent).natAbs) ≤
        c1params.maxTickDeviation) := by
  refine ⟨rfl, rfl, rfl, by decide⟩

/-- Witness for C1: the amended cross-validation bounds at the concrete
input of the counterexample (TWAP tick 100, T2EMA tick 0, current tick
-100, deviation bound 100). -/
theorem fetch_cross_validation_witness :
    ∃ tw te, derivedTwapTick c1pool c1reader c1params = Except.ok tw ∧
      derivedT2emaTick c1reader c1params = Except.ok te ∧
      i32TryFromU64 ((te - c1pool.tickCurrent).natAbs) ≤ c1params.maxTickDeviation ∧
      i32TryFromU64 ((tw - te).natAbs) ≤ c1params.maxTickDeviation :=
  (fetch_cross_validation c1pool c1reader 555 c1params).1
    { price := 18446744073709551616, confidence := 0, timestamp := 10, source := 555,
      liquidityDepth := 1000000, manipulationScore := 10000,
      decimal0 := 6, decimal1 := 6 }
    (by rfl)

/-- C7: when all three historical chunks are empty, a successful
update_price seeds the TWAP result directly from the fetched external
observation: twap_price equals the fetched price, twap_confidence the
fetched confidence, data_points_used is 1 and covered_time_span is 0. -/
theorem update_price_cold_start
    (oracleState : OracleState) (governanceState : GovernanceState)
    (chunk0 chunk1 chunk2 : HistoricalChunk) (pool : PoolState)
    (observation : ObservationReader) (poolKey oracleKey authority : Nat)
    (config : UpdatePriceConfig) (currentTime : Int) (out : UpdateOutcome)
    (h0 : chunk0.count = 0) (h1 : chunk1.count = 0) (h2 : chunk2.count = 0)
    (h : update_price oracleState governanceState chunk0 chunk1 chunk2 pool
      observation poolKey oracleKey authority config currentTime = Except.ok out) :
    fetch_raydium_price_from_observations pool observation poolKey
      { windowSeconds := config.windowSeconds, minSeconds := config.minSeconds,
        minLiquidity := config.minLiquidity,
        maxTickDeviation := config.maxTickDeviation,
        alphaBasisPoints := config.alphaBasisPoints, timestamp := currentTime } =
      Except.ok out.decimalPrice ∧
    out.twapResult.twapPrice = (out.decimalPrice.price : Int) ∧
    out.twapResult.twapConfidence = out.decimalPrice.confidence ∧
    out.twapResult.dataPointsUsed = 1 ∧
    out.twapResult.coveredTimeSpan = 0 := by
  unfold update_price at h
  by_cases g1 : is_emergency_mode oracleState.stateFlags = true
  · rw [if_pos g1] at h
    simp at h
  rw [if_neg g1] at h
  dsimp only at h
  by_cases g2 : oracleState.twapWindow ≤ MAX_TWAP_WINDOW
  case neg =>
    rw [if_pos g2] at h
    simp at h
  rw [if_neg (not_not_intro g2)] at h
  by_cases g3 : max MIN_HISTORICAL_INTERVAL.toNat OBSERVATION_UPDATE_DURATION ≤
      oracleState.twapWindow
  case neg =>
    rw [if_pos g3] at h
    simp at h
  rw [if_neg (not_not_intro g3)] at h
  by_cases g4 : max MIN_HISTORICAL_INTERVAL.toNat OBSERVATION_UPDATE_DURATION ≤
      config.windowSeconds ∧ config.windowSeconds ≤ MAX_TWAP_WINDOW
  case neg =>
    rw [if_pos g4] at h
    simp at h
  rw [if_neg (not_not_intro g4)] at h
  by_cases g5 : oracleState.twapWindow % OBSERVATION_UPDATE_DURATION = 0
  case neg =>
    rw [if_pos g5] at h
    simp at h
  rw [if_neg (not_not_intro g5)] at h
  by_cases g6 : config.windowSeconds % OBSERVATION_UPDATE_DURATION = 0
  case neg =>
    rw [if_pos g6] at h
    simp at h
  rw [if_neg (not_not_intro g6)] at h
  rw [except_bind_eq_ok] at h
  obtain ⟨dp, hdpm, h⟩ := h
  rw [mapError_eq_ok] at hdpm
  by_cases g7 : 0 < dp.price
  case neg =>
    rw [if_pos g7] at h
    simp at h
  rw [if_neg (not_not_intro g7)] at h
  rw [if_pos ⟨h0, h1, h2⟩] at h
  simp only [pure, bind, Except.bind, Except.pure] at h
  cases hfind : oracleState.priceFeeds.findIdx?
      (fun feed => feed.sourceAddress = poolKey) with
  | none =>
      rw [hfind] at h
      simp at h
  | some feedIndex =>
      rw [hfind] at h
      dsimp only at h
      rcases hdet : determine_active_chunk chunk0 chunk1 chunk2
          oracleState.currentChunkIndex with ⟨aci, rot⟩
      rw [hdet] at h
      have hb := fetch_ok_price_bounds _ _ _ _ _ hdpm
      have hmin : min dp.price i128Max.toNat = dp.price :=
        Nat.min_eq_left (le_trans hb.2 (by decide))
      rcases aci with _ | _ | aci <;>
        (dsimp only at h
         simp only [Except.ok.injEq] at h
         subst h
         exact ⟨hdpm, by simp [hmin], rfl, rfl, rfl⟩)

/-- Concrete oracle state for the update_price theorems: one registered feed
whose source address is the pool key 555, a 900-second TWAP window, no
emergency flags. -/
def c7oracle : OracleState :=
  { stateFlags := 0, lastUpdate := 0,
    currentPrice := { price := 0, conf := 0, timestamp := 0, expo := -6 },
    priceFeeds := [{ sourceAddress := 555, lastPrice := 0, volume24h := 0,
                     liquidityDepth := 0, lastConf := 0, lastUpdate := 0,
                     lastExpo := 0, weight := 0, lpConcentration := 0,
                     manipulationScore := 0, sourceType := 0, flags := 0 }],
    twapWindow := 900, currentChunkIndex := 0, confidenceThreshold := 0,
    manipulationThreshold := 0, activeFeedCount := 1 }

/-- Concrete governance state: a single active member with key 77 holding
all permissions; the caller key 999 is not a member. -/
def c2gov : GovernanceState :=
  { activeMemberCount := 1, multisigMembers := [77], memberPermissions := [127] }

def c7config : UpdatePriceConfig :=
  { windowSeconds := 900, minSeconds := 0, minLiquidity := 0,
    maxTickDeviation := 100, alphaBasisPoints := 5000 }

/-- Witness for C7: a full concrete cold-start run (all chunks empty). -/
theorem update_price_cold_start_witness :
    ∃ out, update_price c7oracle c2gov emptyChunk emptyChunk emptyChunk c1pool
        c1reader 555 7 999 c7config 20 = Except.ok out ∧
      (fetch_raydium_price_from_observations c1pool c1reader 555
        { windowSeconds := c7config.windowSeconds, minSeconds := c7config.minSeconds,
          minLiquidity := c7config.minLiquidity,
          maxTickDeviation := c7config.maxTickDeviation,
          alphaBasisPoints := c7config.alphaBasisPoints, timestamp := 20 } =
        Except.ok out.decimalPrice ∧
      out.twapResult.twapPrice = (out.decimalPrice.price : Int) ∧
      out.twapResult.twapConfidence = out.decimalPrice.confidence ∧
      out.twapResult.dataPointsUsed = 1 ∧
      out.twapResult.coveredTimeSpan = 0) := by
  have hrun : (update_price c7oracle c2gov emptyChunk emptyChunk emptyChunk c1pool
      c1reader 555 7 999 c7config 20).isOk = true := by rfl
  cases hout : update_price c7oracle c2gov emptyChunk emptyChunk emptyChunk c1pool
      c1reader 555 7 999 c7config 20 with
  | error e =>
      rw [hout] at hrun
      exact Bool.noConfusion hrun
  | ok out =>
      exact ⟨out, rfl, update_price_cold_start c7oracle c2gov emptyChunk emptyChunk
        emptyChunk c1pool c1reader 555 7 999 c7config 20 out rfl rfl rfl hout⟩

/-- C2 (evidence of the code bug): the caller key 999 is not an active
governance member — check_member_permission rejects it with the
identity-class error — yet update_price succeeds for that caller and
mutates oracle state (last_update goes from 0 to 20), because the
`check_member_permission` call in update_price (source line 487) is
commented out. -/
theorem update_price_unauthorized_caller_succeeds :
    check_member_permission c2gov 999 UPDATE_PRICE =
      Except.error StateError.UnauthorizedCaller ∧
    (update_price c7oracle c2gov emptyChunk emptyChunk emptyChunk c1pool c1reader
        555 7 999 c7config 20).isOk = true ∧
    (update_price c7oracle c2gov emptyChunk emptyChunk emptyChunk c1pool c1reader
        555 7 999 c7config 20).map (fun out => out.oracleState.lastUpdate) =
      Except.ok 20 ∧
    c7oracle.lastUpdate = 0 :=
  ⟨rfl, rfl, rfl, rfl⟩

/-- C8: every raw u64 bit pattern fed through `from_u64_truncate` yields bits
that are a subset of `VALID_MASK`, and re-applying the truncation
constructor to the result's raw bits returns the same value. -/
theorem from_u64_truncate_masked_idempotent (v : Nat) :
    from_u64_truncate v &&& VALID_MASK = from_u64_truncate v ∧
    from_u64_truncate (permAsU64 (from_u64_truncate v)) = from_u64_truncate v := by
  constructor
  · simp [from_u64_truncate, Nat.and_assoc]
  · simp [from_u64_truncate, permAsU64, Nat.and_assoc]

/-- C10: assess_manipulation_risk always returns a score between 1000 and
10000 inclusive — the staleness component is at least 500 and the liquidity
component is at least 500 in every branch, so the composite score is never
below 1000 even for perfect inputs, and it is capped at 10000. -/
theorem assess_manipulation_risk_bounds (varianceConfidence : Nat)
    (deviationVsCurrent : Int) (secondsElapsed : Nat)
    (liquidityWeight minLiquidity : Nat) :
    1000 ≤ assess_manipulation_risk varianceConfidence deviationVsCurrent
      secondsElapsed liquidityWeight minLiquidity ∧
    assess_manipulation_risk varianceConfidence deviationVsCurrent
      secondsElapsed liquidityWeight minLiquidity ≤ 10000 := by
  unfold assess_manipulation_risk satAddU32 satMulU32 u32Max
  dsimp only
  by_cases h1 : secondsElapsed ≤ 29 <;> by_cases h2 : secondsElapsed ≤ 1800 <;>
    by_cases h3 : liquidityWeight < minLiquidity <;> simp only [h1, h2, h3, if_true, if_false] <;>
    omega

/-- C9: a caller whose key occurs only at member indices at or beyond
`active_member_count` fails check_member_permission with the identity-class
error UnauthorizedCaller — never with InsufficientPermissions — regardless
of the key and permission data stored beyond the active boundary. -/
theorem check_member_permission_inactive (gs : GovernanceState) (memberKey : Nat)
    (requiredPermission : Nat)
    (h : ∀ i, gs.multisigMembers.get? i = some memberKey →
      gs.activeMemberCount ≤ i) :
    check_member_permission gs memberKey requiredPermission =
      Except.error StateError.UnauthorizedCaller := by
  have hnone : find_member gs memberKey = none := by
    apply findMemberFrom_none
    intro k hk
    have := h k hk
    omega
  simp [check_member_permission, hnone]

/-- Witness for C9: a concrete governance state whose third member slot
holds the caller's key while `active_member_count = 2`. -/
theorem check_member_permission_inactive_witness :
    check_member_permission
      { activeMemberCount := 2, multisigMembers := [10, 11, 42],
        memberPermissions := [1, 1, 127] } 42 UPDATE_PRICE =
      Except.error StateError.UnauthorizedCaller := by
  apply check_member_permission_inactive
  intro i hi
  match i with
  | 0 => simp at hi
  | 1 => simp at hi
  | 2 => decide
  | n + 3 => simp at hi

/-- C3 counterexample: at tick `-2` get_sqrt_ratio_at_tick returns the bit
product itself, not its reciprocal, contradicting the claim that the
reciprocal is taken exactly for negative ticks. -/
theorem get_sqrt_ratio_negative_no_reciprocal :
    get_sqrt_ratio_at_tick (-2) = Except.ok (bitRatioProduct (Int.natAbs (-2))) ∧
    u128Max / bitRatioProduct (Int.natAbs (-2)) ≠ bitRatioProduct (Int.natAbs (-2)) := by
  constructor
  · rfl
  · decide

/-- C3 (amended): for MIN_TICK < t < MAX_TICK, every successful
get_sqrt_ratio_at_tick call returns the Q64.64 product of the per-bit
constants over the set bits of `|t|` (seeded with the k = 0 constant for
odd `|t|`, else 1.0), with the reciprocal of the product taken exactly when
`t` is positive and the product returned unchanged when `t` is not. -/
theorem get_sqrt_ratio_bit_product (t : Int) (h1 : MIN_TICK < t) (h2 : t < MAX_TICK)
    (r : Nat) (hr : get_sqrt_ratio_at_tick t = Except.ok r) :
    r = if 0 < t then u128Max / bitRatioProduct t.natAbs
        else bitRatioProduct t.natAbs := by
  have hbounds : -MAX_TICK ≤ t ∧ t ≤ MAX_TICK := by
    unfold MIN_TICK MAX_TICK at *
    omega
  have hne1 : t ≠ MIN_TICK := by unfold MIN_TICK MAX_TICK at *; omega
  have hne2 : t ≠ MAX_TICK := by unfold MIN_TICK MAX_TICK at *; omega
  unfold get_sqrt_ratio_at_tick at hr
  rw [if_neg (by simp [hbounds]), if_neg hne1, if_neg hne2] at hr
  dsimp only at hr
  rw [sqrtChain_ok t.natAbs] at hr
  simp only [bind, Except.bind] at hr
  by_cases hpos : 0 < t
  · simp only [if_pos hpos] at hr ⊢
    by_cases hok : MIN_SQRT_PRICE_X64 ≤ u128Max / bitRatioProduct t.natAbs ∧
        u128Max / bitRatioProduct t.natAbs ≤ MAX_SQRT_PRICE_X64
    · rw [if_neg (by simpa using hok)] at hr
      exact (Except.ok.injEq _ _).mp hr.symm
    · rw [if_pos (by simpa using hok)] at hr
      exact absurd hr (by simp)
  · simp only [if_neg hpos] at hr ⊢
    by_cases hok : MIN_SQRT_PRICE_X64 ≤ bitRatioProduct t.natAbs ∧
        bitRatioProduct t.natAbs ≤ MAX_SQRT_PRICE_X64
    · rw [if_neg (by simpa using hok)] at hr
      exact (Except.ok.injEq _ _).mp hr.symm
    · rw [if_pos (by simpa using hok)] at hr
      exact absurd hr (by simp)

/-- Witness for C3: the amended statement evaluated at tick `-2`. -/
theorem get_sqrt_ratio_bit_product_witness :
    bitRatioProduct (Int.natAbs (-2)) =
      if (0 : Int) < -2 then u128Max / bitRatioProduct (Int.natAbs (-2))
      else bitRatioProduct (Int.natAbs (-2)) := by
  have h := get_sqrt_ratio_bit_product (-2) (by decide) (by decide)
    (bitRatioProduct (Int.natAbs (-2))) (by rfl)
  exact h

end Oracle
